import Mathlib

/-!
Verification of the midloop data-normalization layer (src/js/script.js).

The JavaScript adapter/formatter layer is shallowly embedded:
* JS `null`/`undefined`/absent fields are `Option.none`; JS numbers are
  exact rationals `ℚ` (integers use `ℤ` where the source only ever sees
  integers); a separate `none` also covers `NaN` where the source treats
  `NaN` like `null` (noted per definition).
* The ambient clock (`new Date()`) becomes an explicit `todayMs` argument.
* JS dates are modelled as milliseconds since the Unix epoch in a
  proleptic Gregorian calendar with local time = UTC (no DST/timezone).
* String parsing of dates models the `YYYY-MM-DD` date-only ISO form
  used by the repository's data files; other strings parse as invalid.
-/

namespace Midloop

/-! ## Basic JS value modelling -/

/-- JS truthiness of an optional string: `null`/`undefined` and `""` are falsy. -/
def truthyS : Option String → Bool
  | none => false
  | some s => s ≠ ""

/-- JS `a || b` for string-valued expressions. -/
def jsOrS (a b : Option String) : Option String :=
  if truthyS a then a else b

/-- JS `a || dflt` where the default is a string literal (as in
`rawData[titleField] || 'Untitled'`). -/
def jsOrStr (a : Option String) (dflt : String) : String :=
  match a with
  | none => dflt
  | some s => if s = "" then dflt else s

/-- JS `x || null` for string-valued expressions. -/
def jsOrNullS (a : Option String) : Option String :=
  if truthyS a then a else none

/-! ## Calendar model (proleptic Gregorian, as ECMAScript `Date`) -/

/-- Milliseconds in one day. -/
def msPerDay : ℤ := 86400000

/-- Days from the civil epoch 1970-01-01 to year/month/day
(proleptic Gregorian; Hinnant's algorithm with floor division). -/
def daysFromCivil (y m d : ℤ) : ℤ :=
  let y' := if m ≤ 2 then y - 1 else y
  let era := Int.fdiv y' 400
  let yoe := (y' - era * 400).toNat
  let mp := (if m ≤ 2 then m + 9 else m - 3).toNat
  let doy := (153 * mp + 2) / 5 + (d - 1)
  let doe := (yoe * 365 + yoe / 4 - yoe / 100 : ℤ) + doy
  era * 146097 + doe - 719468

/-- Inverse of `daysFromCivil`: (year, month, day) of a day number. -/
def civilFromDays (z : ℤ) : ℤ × ℤ × ℤ :=
  let z' := z + 719468
  let era := Int.fdiv z' 146097
  let doe := (z' - era * 146097).toNat
  let yoe := (doe - doe / 1460 + doe / 36524 - doe / 146096) / 365
  let doy := doe - (365 * yoe + yoe / 4 - yoe / 100)
  let mp := (5 * doy + 2) / 153
  let d := (doy - (153 * mp + 2) / 5 + 1 : ℕ)
  let m := if mp < 10 then (mp : ℤ) + 3 else (mp : ℤ) - 9
  let y := (yoe : ℤ) + era * 400 + (if m ≤ 2 then 1 else 0)
  (y, m, (d : ℤ))

/-- True in leap years of the proleptic Gregorian calendar. -/
def isLeapYear (y : ℤ) : Bool :=
  (y % 4 = 0 && y % 100 ≠ 0) || y % 400 = 0

/-- Day count of a month, used to validate date-only strings. -/
def daysInMonth (y m : ℤ) : ℤ :=
  if m = 2 then (if isLeapYear y then 29 else 28)
  else if m = 4 ∨ m = 6 ∨ m = 9 ∨ m = 11 then 30
  else 31

/-- Digit value of a character. -/
def digitVal (c : Char) : ℕ := c.toNat - 48

/-- Parse a `YYYY-MM-DD` date-only string to UTC-midnight milliseconds.
Models ECMAScript date-only ISO parsing (interpreted as UTC; out-of-range
components give an invalid date). Strings in other formats are modelled
as invalid (`none`), matching the repository's data files which use this
form exclusively. -/
def parseDateOnly (s : String) : Option ℤ :=
  match s.toList with
  | [y1, y2, y3, y4, h1, m1, m2, h2, d1, d2] =>
    if (y1.isDigit && y2.isDigit && y3.isDigit && y4.isDigit &&
        m1.isDigit && m2.isDigit && d1.isDigit && d2.isDigit &&
        h1 = '-' && h2 = '-') then
      let y : ℤ := (1000 * digitVal y1 + 100 * digitVal y2 + 10 * digitVal y3 + digitVal y4 : ℕ)
      let m : ℤ := (10 * digitVal m1 + digitVal m2 : ℕ)
      let d : ℤ := (10 * digitVal d1 + digitVal d2 : ℕ)
      if 1 ≤ m ∧ m ≤ 12 ∧ 1 ≤ d ∧ d ≤ daysInMonth y m then
        some (daysFromCivil y m d * msPerDay)
      else none
    else none
  | _ => none

/-- Left-pad a number with zeros to the given width. -/
def padNum (w : ℕ) (n : ℕ) : String :=
  let s := toString n
  String.mk (List.replicate (w - s.length) '0') ++ s

/-- `Date.prototype.toISOString` on a millisecond timestamp (years
0–9999; the expanded ±YYYYYY form for years outside that range is not
modelled, no data in this repository reaches it). -/
def toISOString (ms : ℤ) : String :=
  let day := Int.fdiv ms msPerDay
  let rem := (ms - day * msPerDay).toNat
  let ymd := civilFromDays day
  let hh := rem / 3600000
  let mi := rem % 3600000 / 60000
  let ss := rem % 60000 / 1000
  let mss := rem % 1000
  padNum 4 ymd.1.toNat ++ "-" ++ padNum 2 ymd.2.1.toNat ++ "-" ++ padNum 2 ymd.2.2.toNat ++
    "T" ++ padNum 2 hh ++ ":" ++ padNum 2 mi ++ ":" ++ padNum 2 ss ++ "." ++ padNum 3 mss ++ "Z"

/-- `setHours(0,0,0,0)` on a millisecond timestamp: floor to the day start
(local time modelled as UTC). -/
def midnightMs (ms : ℤ) : ℤ :=
  Int.fdiv ms msPerDay * msPerDay

/-- `Math.ceil(a / b)` for exact integer arguments, `b > 0`. -/
def jsCeilDiv (a b : ℤ) : ℤ :=
  -(Int.fdiv (-a) b)

/-! ## Sanitizers (script.js lines 24–33) -/

/-- A JS value that is either a string or some non-string value; the
adapter layer only branches on `typeof url !== 'string'`. -/
inductive JSStrInput where
  | str (s : String)
  | nonString
deriving DecidableEq

/-- The JS whitespace characters relevant to `String.prototype.trim`
(space, tab, LF, VT, FF, CR; wider Unicode space classes do not occur in
the modelled data). -/
def isJsSpace (c : Char) : Bool :=
  c = ' ' || c = '\t' || c = '\n' || c = '\r' || c = Char.ofNat 11 || c = Char.ofNat 12

/-- `String.prototype.trim`: strip whitespace from both ends. -/
def jsTrim (s : String) : String :=
  String.mk (((s.data.dropWhile isJsSpace).reverse.dropWhile isJsSpace).reverse)

/-- ASCII lower-casing of one character (`String.prototype.toLowerCase`
on the ASCII range, which covers the blocked scheme prefixes). -/
def jsToLowerChar (c : Char) : Char :=
  if 'A' ≤ c ∧ c ≤ 'Z' then Char.ofNat (c.toNat + 32) else c

/-- `String.prototype.toLowerCase` (ASCII range). -/
def jsToLower (s : String) : String :=
  String.mk (s.data.map jsToLowerChar)

/-- Character-list core of `String.prototype.startsWith`. -/
def listStartsWith : List Char → List Char → Bool
  | _, [] => true
  | [], _ :: _ => false
  | c :: cs, p :: ps => c = p && listStartsWith cs ps

/-- `String.prototype.startsWith`. -/
def jsStartsWith (s pre : String) : Bool :=
  listStartsWith s.data pre.data

/-- `sanitizeURL(url)`: `''` for non-strings; trims; `''` when the
trimmed lower-cased value starts with `javascript:` or `data:`; else the
trimmed string. -/
def sanitizeURL : JSStrInput → String
  | .nonString => ""
  | .str s =>
    let trimmed := jsTrim s
    if jsStartsWith (jsToLower trimmed) "javascript:" || jsStartsWith (jsToLower trimmed) "data:"
    then ""
    else trimmed

/-! ## Formatters.currencyDisplay (script.js lines 95–106) -/

/-- Floor of a rational as an integer (`q.num` floor-divided by `q.den`). -/
def ratFloor (q : ℚ) : ℤ :=
  Int.fdiv q.num (q.den : ℤ)

/-- `parseInt` applied to a JS number: truncation toward zero. -/
def ratTrunc (q : ℚ) : ℤ :=
  if 0 ≤ q then ratFloor q else -(ratFloor (-q))

/-- Print the integer `n` as a fixed-point decimal with `d` decimals
(no decimal point when `d = 0`): the formatting half of `toFixed`. -/
def jsToFixedN (n : ℤ) (d : ℕ) : String :=
  if d = 0 then toString n
  else
    (if n < 0 then "-" else "")
      ++ toString (n.natAbs / 10 ^ d) ++ "." ++ padNum d (n.natAbs % 10 ^ d)

/-- `Number.prototype.toFixed(d)`: round to `d` decimals picking the
larger integer on ties, then print. Modelled on exact rationals;
double-rounding artifacts of binary floating point are outside the
embedding. -/
def jsToFixed (q : ℚ) (d : ℕ) : String :=
  jsToFixedN (ratFloor (q * (10 : ℚ) ^ d + 1 / 2)) d

/-- Print a JS number the way string interpolation would, for rationals
with a finite decimal expansion (the values representable in the data):
the least `k` with `den ∣ 10^k` gives the decimal digit count; integers
print without a decimal point; other rationals (never produced by JS
doubles) fall back to an exact fraction form. -/
def jsNumberToString (q : ℚ) : String :=
  match (List.range 31).find? (fun k => 10 ^ k % q.den = 0) with
  | some 0 => toString q.num
  | some k =>
    let m : ℤ := q.num * ((10 ^ k / q.den : ℕ) : ℤ)
    (if m < 0 then "-" else "")
      ++ toString (m.natAbs / 10 ^ k) ++ "." ++ padNum k (m.natAbs % 10 ^ k)
  | none => toString q.num ++ "/" ++ toString q.den

/-- `Formatters.currencyDisplay(amount)`: `none` models
`null`/`undefined`/`NaN` (all rejected by `!amount || isNaN(amount)`),
`some 0` is falsy; otherwise `parseInt` then the `M`/`K`/plain branches. -/
def currencyDisplay (amount : Option ℚ) : String :=
  match amount with
  | none => "N/A"
  | some a =>
    if a = 0 then "N/A"
    else
      let num := ratTrunc a
      if num ≥ 1000000 then "$" ++ jsToFixed ((num : ℚ) / 1000000) 1 ++ "M"
      else if num ≥ 1000 then "$" ++ jsToFixed ((num : ℚ) / 1000) 0 ++ "K"
      else "$" ++ toString num

/-- The claim's reading of `currencyDisplay` (spec §4.2 table): branch on
the raw amount and print the amount itself in the plain branch. Stated
from the spec's words, to be compared with the source's `currencyDisplay`. -/
def currencyDisplayClaimed (amount : Option ℚ) : String :=
  match amount with
  | none => "N/A"
  | some a =>
    if a = 0 then "N/A"
    else if a ≥ 1000000 then "$" ++ jsToFixed (a / 1000000) 1 ++ "M"
    else if a ≥ 1000 then "$" ++ jsToFixed (a / 1000) 0 ++ "K"
    else "$" ++ jsNumberToString a

/-! ## AdapterUtils: array entries, genres, arrays (script.js 313–349, 512–541) -/

/-- One entry of a JS array reaching `normalizeGenres`/`normalizeArray`:
a number, a string, an object carrying a string `name` property, an
object without one, or `null`. -/
inductive GEntry where
  | num (n : ℤ)
  | str (s : String)
  | objNamed (name : String)
  | objOther
  | nullv
deriving DecidableEq

/-- JS truthiness of a `GEntry` (`filter(Boolean)`): `0`, `""` and `null`
are falsy, every object is truthy. -/
def GEntry.truthy : GEntry → Bool
  | .num n => n ≠ 0
  | .str s => s ≠ ""
  | .objNamed _ => true
  | .objOther => true
  | .nullv => false

/-- `genreMap[entry]` for a map keyed by numeric IDs. Lookup of
non-numeric entries yields `undefined` (numeric-string key coercion is
outside the modelled domain; the adapters only pass numeric-ID arrays). -/
def jsMapLookup (m : ℤ → Option String) : GEntry → Option String
  | .num n => m n
  | _ => none

/-- `AdapterUtils.normalizeGenres(genresInput, genreMap)`: `[]` for
non-array/empty input; shape detection on the first element — numeric
IDs with a map are looked up and `filter(Boolean)`ed, string-first
arrays are `filter(Boolean)`ed as-is, object-with-`name`-first arrays
map to the `name` property and `filter(Boolean)`; anything else logs a
warning (not modelled) and returns `[]`. -/
def normalizeGenres (genresInput : Option (List GEntry)) (genreMap : Option (ℤ → Option String)) :
    List GEntry :=
  match genresInput with
  | none => []
  | some l =>
    match l with
    | [] => []
    | firstItem :: _ =>
      match firstItem, genreMap with
      | .num _, some m =>
        l.filterMap (fun e =>
          match jsMapLookup m e with
          | some s => if s ≠ "" then some (GEntry.str s) else none
          | none => none)
      | .num _, none => []
      | .str _, _ => l.filter GEntry.truthy
      | .objNamed _, _ =>
        l.filterMap (fun e =>
          match e with
          | .objNamed v => if v ≠ "" then some (GEntry.str v) else none
          | _ => none)
      | .objOther, _ => []
      | .nullv, _ => []

/-- `AdapterUtils.normalizeArray(input, extractProperty)`: `[]` for
non-array/empty; without a property, keeps truthy string entries; with a
property, maps strings through and extracts the property from objects
that carry it, then `filter(Boolean)`. The adapters only use the
property name `'name'`, which the `objNamed` constructor models. -/
def normalizeArray (input : Option (List GEntry)) (extractProperty : Option String) :
    List String :=
  match input with
  | none => []
  | some l =>
    match extractProperty with
    | none => l.filterMap (fun e => match e with
        | .str s => if s ≠ "" then some s else none
        | _ => none)
    | some p => l.filterMap (fun e => match e with
        | .str s => if s ≠ "" then some s else none
        | .objNamed v => if p = "name" ∧ v ≠ "" then some v else none
        | _ => none)

/-! ## AdapterUtils: dates (script.js 374–452, 566–591) -/

/-- A raw date field: a JS number or a JS string (`Date` object inputs
cannot occur in JSON-sourced records). -/
inductive DateInput where
  | num (n : ℤ)
  | str (s : String)
deriving DecidableEq

/-- JS truthiness of an optional date field: `null`/`undefined`, `0`
and `""` are falsy. -/
def truthyD : Option DateInput → Bool
  | none => false
  | some (.num n) => n ≠ 0
  | some (.str s) => s ≠ ""

/-- JS `a || b` for date-valued fields. -/
def jsOrD (a b : Option DateInput) : Option DateInput :=
  if truthyD a then a else b

/-- `new Date(x)` as a millisecond timestamp: numbers are milliseconds,
strings parse per `parseDateOnly`; `none` is an invalid date (`NaN`). -/
def jsNewDate : DateInput → Option ℤ
  | .num n => some n
  | .str s => parseDateOnly s

/-- `AdapterUtils.normalizeReleaseDate(dateInput)`: `null` for falsy
input; numeric input is Unix seconds (`new Date(n * 1000)`); strings
parse directly; invalid dates give `null`; valid dates give the ISO
string. -/
def normalizeReleaseDate (dateInput : Option DateInput) : Option String :=
  match dateInput with
  | none => none
  | some di =>
    if di = .num 0 ∨ di = .str "" then none
    else
      match di with
      | .num n => some (toISOString (n * 1000))
      | .str s =>
        match parseDateOnly s with
        | none => none
        | some ms => some (toISOString ms)

/-- `AdapterUtils.getTVShowDisplayDate(firstAirDate, nextEpisodeDate)`
with the ambient `new Date()` passed as `todayMs`. No (truthy) first-air
date: `nextEpisodeDate || null`. Otherwise both dates are
midnight-normalized and, when first-air is strictly before today and a
next-episode date is truthy, the next-episode date is returned; in every
other case (including an unparseable first-air date, whose `NaN`
comparison is false) the first-air date is returned unchanged. -/
def getTVShowDisplayDate (todayMs : ℤ) (firstAirDate nextEpisodeDate : Option DateInput) :
    Option DateInput :=
  if ¬ truthyD firstAirDate then
    (if truthyD nextEpisodeDate then nextEpisodeDate else none)
  else
    match firstAirDate with
    | none => none
    | some fa =>
      match jsNewDate fa with
      | none => some fa
      | some ms =>
        if midnightMs ms < midnightMs todayMs ∧ truthyD nextEpisodeDate then nextEpisodeDate
        else some fa

/-- A JS number or `NaN`. -/
inductive JSNum where
  | nan
  | val (n : ℤ)
deriving DecidableEq

/-- Result of `getCountdownStatus`. -/
structure CountdownStatus where
  daysUntil : Option JSNum
  isCountdown : Bool
deriving DecidableEq

/-- `AdapterUtils.getCountdownStatus(releaseDate)`: `{null, false}` for
falsy input; otherwise midnight-normalize the release date and today,
take `Math.ceil` of the millisecond difference over one day, and flag a
countdown iff `1 ≤ daysUntil ≤ 7`. An unparseable date yields `NaN`
days (every comparison false). -/
def getCountdownStatus (todayMs : ℤ) (releaseDate : Option DateInput) : CountdownStatus :=
  if ¬ truthyD releaseDate then ⟨none, false⟩
  else
    match releaseDate with
    | none => ⟨none, false⟩
    | some rd =>
      match jsNewDate rd with
      | none => ⟨some .nan, false⟩
      | some ms =>
        let diffTime := midnightMs ms - midnightMs todayMs
        let daysUntil := jsCeilDiv diffTime msPerDay
        ⟨some (.val daysUntil), decide (1 ≤ daysUntil ∧ daysUntil ≤ 7)⟩

/-! ## AdapterUtils: ratings, posters, store URLs, common fields -/

/-- `AdapterUtils.normalizeRating(rating, scale)`: `none` models
`null`/`undefined`/`NaN`; a numeric rating strictly outside `[0, scale]`
logs a warning (not modelled) and becomes `null`; otherwise the value is
returned unchanged. -/
def normalizeRating (rating : Option ℚ) (scale : ℚ) : Option ℚ :=
  match rating with
  | none => none
  | some r => if r < 0 ∨ r > scale then none else some r

/-- TMDB image base URL (script.js line 12). -/
def TMDB_IMAGE_BASE : String := "https://image.tmdb.org/t/p/w500"

/-- Options of `normalizePosterURL`, with the source's defaults applied
at construction. -/
structure PosterOptions where
  baseURL : String
  placeholder : String
  isFullURL : Bool

/-- `AdapterUtils.normalizePosterURL(posterPath, options)`: placeholder
for falsy or literal-placeholder paths; full URLs (or `isFullURL`) pass
through; otherwise `baseURL + path`. -/
def normalizePosterURL (posterPath : Option String) (options : PosterOptions) : String :=
  match posterPath with
  | none => options.placeholder
  | some p =>
    if p = "" ∨ p = "placeholder_poster.jpg" then options.placeholder
    else if options.isFullURL || p.startsWith "http://" || p.startsWith "https://" then p
    else options.baseURL ++ p

/-- The WHATWG `new URL(url)` constructor's accept/reject behavior,
modelled as requiring an alphabetic scheme before a colon (the store
URLs in the data are ordinary absolute `https:` URLs). -/
def jsURLParses (s : String) : Bool :=
  match s.splitOn ":" with
  | pre :: _ :: _ => pre ≠ "" && pre.all Char.isAlpha
  | _ => false

/-- `AdapterUtils.normalizeStoreURL(url, platform)`: `null` for
falsy/non-string input; a URL the parser accepts is returned unchanged,
otherwise `null` (with a warning naming the platform, not modelled). -/
def normalizeStoreURL (url : Option String) (platform : String) : Option String :=
  match url with
  | none => none
  | some s =>
    if s = "" then none
    else if jsURLParses s then some s else none

/-- A StandardItem id: numeric for movies/TV, a slug string for games. -/
inductive JSId where
  | num (n : ℤ)
  | str (s : String)
deriving DecidableEq

/-- Result of `extractCommonFields`. -/
structure CommonFields where
  id : Option JSId
  title : String
  description : String
  poster : String
deriving DecidableEq

/-- `AdapterUtils.extractCommonFields(rawData, config)`: the config's
field names select raw values at the call site (modelled by passing the
selected values directly); `title` and `description` default via
`|| 'Untitled'` / `|| defaultDescription`. -/
def extractCommonFields (rawId : Option JSId) (rawTitle rawDesc rawPoster : Option String)
    (posterOptions : PosterOptions) (defaultDescription : String) : CommonFields :=
  { id := rawId
    title := jsOrStr rawTitle "Untitled"
    description := jsOrStr rawDesc defaultDescription
    poster := normalizePosterURL rawPoster posterOptions }

/-! ## Genre maps (script.js 1450–1489) -/

/-- TMDB movie genre ID → name (script.js 1450–1470). -/
def movieGenreMap : ℤ → Option String := fun n =>
  if n = 28 then some "Action"
  else if n = 12 then some "Adventure"
  else if n = 16 then some "Animation"
  else if n = 35 then some "Comedy"
  else if n = 80 then some "Crime"
  else if n = 99 then some "Documentary"
  else if n = 18 then some "Drama"
  else if n = 10751 then some "Family"
  else if n = 14 then some "Fantasy"
  else if n = 36 then some "History"
  else if n = 27 then some "Horror"
  else if n = 10402 then some "Music"
  else if n = 9648 then some "Mystery"
  else if n = 10749 then some "Romance"
  else if n = 878 then some "Sci-Fi"
  else if n = 10770 then some "TV Movie"
  else if n = 53 then some "Thriller"
  else if n = 10752 then some "War"
  else if n = 37 then some "Western"
  else none

/-- TMDB TV genre ID → name (script.js 1472–1489). -/
def tvGenreMap : ℤ → Option String := fun n =>
  if n = 10759 then some "Action"
  else if n = 16 then some "Animation"
  else if n = 35 then some "Comedy"
  else if n = 80 then some "Crime"
  else if n = 99 then some "Documentary"
  else if n = 18 then some "Drama"
  else if n = 10751 then some "Family"
  else if n = 10762 then some "Kids"
  else if n = 9648 then some "Mystery"
  else if n = 10763 then some "News"
  else if n = 10764 then some "Reality"
  else if n = 10765 then some "Sci-Fi"
  else if n = 10766 then some "Soap"
  else if n = 10767 then some "Talk"
  else if n = 10768 then some "War"
  else if n = 37 then some "Western"
  else none

/-! ## Raw records and StandardItem (script.js 1492–1601) -/

/-- Type-specific metadata of a StandardItem, tagged by `metadata.type`. -/
inductive Metadata where
  | movie (imdbId : Option String) (runtime : Option ℤ)
      (originalTitle originalLanguage productionCompanies : Option String)
      (budget revenue : Option ℤ) (theatricalReleaseDate : Option String)
  | tvShow (imdbId : Option String) (seasons episodes : Option ℤ)
      (networks : List String) (status : Option String)
      (nextEpisodeDate : Option String) (creators : List String)
  | game (steamUrl epicUrl : Option String)
      (platforms developers publishers gameModes : List String)
deriving DecidableEq

/-- The normalized content record produced by the adapters. `releaseDate`
keeps the raw `DateInput` shape because `normalizeTVShow` stores the raw
display-date string unchanged while the other adapters store the ISO
string produced by `normalizeReleaseDate`. -/
structure StandardItem where
  id : Option JSId
  title : Option String
  description : String
  poster : String
  releaseDate : Option DateInput
  rating : Option ℚ
  ratingMax : ℚ
  genres : List GEntry
  metadata : Metadata
deriving DecidableEq

/-- Raw movie record fields consumed by `normalizeMovie` (spec §6). -/
structure RawMovie where
  id : Option ℤ
  title : Option String
  overview : Option String
  poster_path : Option String
  digital_release_date : Option DateInput
  release_date : Option DateInput
  vote_average : Option ℚ
  genre_ids : Option (List GEntry)
  imdb_id : Option String
  runtime : Option ℤ
  original_title : Option String
  original_language : Option String
  production_companies : Option String
  budget : Option ℤ
  revenue : Option ℤ
deriving DecidableEq

/-- Raw TV record fields consumed by `normalizeTVShow` (spec §6). -/
structure RawTVShow where
  id : Option ℤ
  title : Option String
  name : Option String
  overview : Option String
  poster_path : Option String
  first_air_date : Option DateInput
  digital_release_date : Option DateInput
  next_episode_date : Option DateInput
  vote_average : Option ℚ
  genre_ids : Option (List GEntry)
  imdb_id : Option String
  number_of_seasons : Option ℤ
  number_of_episodes : Option ℤ
  networks : Option (List GEntry)
  release_status : Option String
  created_by : Option (List GEntry)
deriving DecidableEq

/-- Raw game record fields consumed by `normalizeGame` (spec §6). -/
structure RawGame where
  slug : Option String
  name : Option String
  summary : Option String
  poster_path : Option String
  first_release_date : Option DateInput
  total_rating : Option ℚ
  genres : Option (List GEntry)
  steam_url : Option String
  epic_url : Option String
  platforms : Option (List GEntry)
  developers : Option (List GEntry)
  publishers : Option (List GEntry)
  game_modes : Option (List GEntry)
deriving DecidableEq

/-- Default poster placeholder path of `normalizePosterURL`. -/
def defaultPlaceholder : String := "shared-data/placeholder_poster.jpg"

/-- `normalizeMovie(rawMovie)` (script.js 1492–1525). The trailing
`validateAndLog` call only logs and does not alter the returned item, so
it is not part of the embedding. -/
def normalizeMovie (rawMovie : RawMovie) : StandardItem :=
  let common := extractCommonFields (rawMovie.id.map .num) rawMovie.title rawMovie.overview
    rawMovie.poster_path ⟨TMDB_IMAGE_BASE, defaultPlaceholder, false⟩ "No overview available."
  { id := common.id
    title := some common.title
    description := common.description
    poster := common.poster
    releaseDate := (normalizeReleaseDate rawMovie.digital_release_date).map .str
    rating := normalizeRating rawMovie.vote_average 10
    ratingMax := 10
    genres := normalizeGenres rawMovie.genre_ids (some movieGenreMap)
    metadata := .movie rawMovie.imdb_id rawMovie.runtime rawMovie.original_title
      rawMovie.original_language rawMovie.production_companies rawMovie.budget rawMovie.revenue
      (normalizeReleaseDate rawMovie.release_date) }

/-- `normalizeTVShow(rawShow)` (script.js 1527–1566), with the ambient
clock as `todayMs`. The `...common` spread's title is overridden by
`rawShow.title || rawShow.name`, with no `'Untitled'` fallback. -/
def normalizeTVShow (todayMs : ℤ) (rawShow : RawTVShow) : StandardItem :=
  let common := extractCommonFields (rawShow.id.map .num) rawShow.title rawShow.overview
    rawShow.poster_path ⟨TMDB_IMAGE_BASE, defaultPlaceholder, false⟩ "No overview available."
  let displayDate := getTVShowDisplayDate todayMs
    (jsOrD rawShow.first_air_date rawShow.digital_release_date) rawShow.next_episode_date
  { id := common.id
    title := (if truthyS rawShow.title then rawShow.title else rawShow.name)
    description := common.description
    poster := common.poster
    releaseDate := displayDate
    rating := normalizeRating rawShow.vote_average 10
    ratingMax := 10
    genres := normalizeGenres rawShow.genre_ids (some tvGenreMap)
    metadata := .tvShow rawShow.imdb_id rawShow.number_of_seasons rawShow.number_of_episodes
      (normalizeArray rawShow.networks none) rawShow.release_status
      (normalizeReleaseDate rawShow.next_episode_date)
      (normalizeArray rawShow.created_by none) }

/-- `normalizeGame(rawGame)` (script.js 1568–1601). -/
def normalizeGame (rawGame : RawGame) : StandardItem :=
  let common := extractCommonFields (rawGame.slug.map .str) rawGame.name rawGame.summary
    rawGame.poster_path ⟨TMDB_IMAGE_BASE, defaultPlaceholder, true⟩ "No summary available."
  { id := rawGame.slug.map .str
    title := some common.title
    description := common.description
    poster := common.poster
    releaseDate := (normalizeReleaseDate rawGame.first_release_date).map .str
    rating := normalizeRating rawGame.total_rating 100
    ratingMax := 100
    genres := normalizeGenres rawGame.genres none
    metadata := .game (normalizeStoreURL rawGame.steam_url "steam")
      (normalizeStoreURL rawGame.epic_url "epic")
      (normalizeArray rawGame.platforms none) (normalizeArray rawGame.developers none)
      (normalizeArray rawGame.publishers none) (normalizeArray rawGame.game_modes none) }

/-! ## loadContent normalization phase (script.js 1643–1678, 1846–1873) -/

/-- The in-memory TTL cache `dataCache`: per-key data and write
timestamps (`set` records `Date.now()`). -/
structure DataCache (Item : Type) where
  data : String → Option (List Item)
  timestamps : String → Option ℤ

/-- `dataCache.set(key, value)` at wall-clock time `now`. -/
def cacheSet {Item : Type} (c : DataCache Item) (key : String) (value : List Item) (now : ℤ) :
    DataCache Item :=
  { data := fun k => if k = key then some value else c.data k
    timestamps := fun k => if k = key then some now else c.timestamps k }

/-- The per-item normalization loop of `loadContent`
(`data.map((item, index) => { try … catch … throw })`): a throwing
adapter aborts the whole map at the first failing index, and the logged
error carries that index and the raw payload. -/
def normalizeAll {Raw Err Item : Type} (adapter : Raw → Except Err Item) :
    List Raw → ℕ → Except (ℕ × Raw × Err) (List Item)
  | [], _ => .ok []
  | x :: xs, i =>
    match adapter x with
    | .error e => .error (i, x, e)
    | .ok y =>
      match normalizeAll adapter xs (i + 1) with
      | .error err => .error err
      | .ok ys => .ok (y :: ys)

/-- The `.then(data => …)` body of `loadContent` after a successful
fetch, paired with its `.catch`: on success the normalized list is
cached under the category key and displayed; a re-thrown adapter
exception reaches the catch block, which clears the container and
leaves the cache untouched. -/
def loadContentNormalize {Raw Err Item : Type} (adapter : Raw → Except Err Item)
    (cache : DataCache Item) (category : String) (now : ℤ) (data : List Raw) :
    DataCache Item × Option (List Item) :=
  match normalizeAll adapter data 0 with
  | .ok normalizedData => (cacheSet cache category normalizedData now, some normalizedData)
  | .error _ => (cache, none)

/-! ## bookmarkManager (script.js 1681–1713) -/

/-- A stored bookmark as far as `toggle` inspects it: an id compared
with `===` plus the rest of the serialized item. -/
structure BItem where
  id : ℤ
  payload : String
deriving DecidableEq

/-- `bookmarkManager.toggle(item)` acting on the stored list
(`getAll()` / `localStorage.setItem` become the input and output lists):
`findIndex` by id, push when absent, `splice(index, 1)` when present;
returns `index === -1`. -/
def bookmarkToggle (item : BItem) (bookmarks : List BItem) : Bool × List BItem :=
  match bookmarks.findIdx? (fun b => b.id = item.id) with
  | none => (true, bookmarks ++ [item])
  | some index => (false, bookmarks.eraseIdx index)

/-! ## Concrete records used by the claims -/

/-- The raw movie record of spec §8's end-to-end scenario:
`{id:1, title:"X", digital_release_date:"2025-01-15", vote_average:5.7, genre_ids:[28]}`. -/
def endToEndRawMovie : RawMovie :=
  { id := some 1, title := some "X", overview := none, poster_path := none
    digital_release_date := some (.str "2025-01-15"), release_date := none
    vote_average := some (57 / 10), genre_ids := some [.num 28]
    imdb_id := none, runtime := none, original_title := none, original_language := none
    production_companies := none, budget := none, revenue := none }

/-- A raw movie record with every field absent. -/
def untitledRawMovie : RawMovie :=
  { id := none, title := none, overview := none, poster_path := none
    digital_release_date := none, release_date := none, vote_average := none
    genre_ids := none, imdb_id := none, runtime := none, original_title := none
    original_language := none, production_companies := none, budget := none, revenue := none }

/-- A raw TV record with every field absent (both `title` and `name` missing). -/
def emptyRawTVShow : RawTVShow :=
  { id := none, title := none, name := none, overview := none, poster_path := none
    first_air_date := none, digital_release_date := none, next_episode_date := none
    vote_average := none, genre_ids := none, imdb_id := none, number_of_seasons := none
    number_of_episodes := none, networks := none, release_status := none, created_by := none }

/-- The rational 500.5, written as a reduced fraction so that kernel
reduction can evaluate it. -/
def fiveHundredPointFive : ℚ := ⟨1001, 2, by decide, by decide⟩

/-! ## Claims -/

/-- Range facts about `normalizeRating`, shared by the adapter bounds. -/
theorem normalizeRating_bounds (o : Option ℚ) (s q : ℚ) (h : normalizeRating o s = some q) :
    0 ≤ q ∧ q ≤ s := by
  cases o with
  | none => simp [normalizeRating] at h
  | some r =>
    by_cases hr : r < 0 ∨ r > s
    · simp [normalizeRating, hr] at h
    · simp only [normalizeRating, if_neg hr, Option.some.injEq] at h
      push_neg at hr
      exact h ▸ ⟨hr.1, hr.2⟩

/-- C1: `normalizeRating(r, s)` returns null exactly on null/undefined/NaN
input (modelled as `none`) and on values strictly outside `[0, s]`, and
returns the value unchanged otherwise (the out-of-range warning is a log
side effect outside the embedding); consequently every StandardItem
produced by `normalizeMovie`, `normalizeTVShow` or `normalizeGame` has
`rating`, when non-null, within `[0, ratingMax]`. -/
theorem claim_C1_rating_invariant :
    (∀ s : ℚ, normalizeRating none s = none)
    ∧ (∀ r s : ℚ, (r < 0 ∨ r > s) → normalizeRating (some r) s = none)
    ∧ (∀ r s : ℚ, 0 ≤ r → r ≤ s → normalizeRating (some r) s = some r)
    ∧ (∀ (raw : RawMovie) (q : ℚ), (normalizeMovie raw).rating = some q →
        0 ≤ q ∧ q ≤ (normalizeMovie raw).ratingMax)
    ∧ (∀ (t : ℤ) (raw : RawTVShow) (q : ℚ), (normalizeTVShow t raw).rating = some q →
        0 ≤ q ∧ q ≤ (normalizeTVShow t raw).ratingMax)
    ∧ (∀ (raw : RawGame) (q : ℚ), (normalizeGame raw).rating = some q →
        0 ≤ q ∧ q ≤ (normalizeGame raw).ratingMax) := by
  refine ⟨fun s => rfl, ?_, ?_, ?_, ?_, ?_⟩
  · intro r s hr
    simp [normalizeRating, hr]
  · intro r s h0 hs
    have : ¬(r < 0 ∨ r > s) := by push_neg; exact ⟨h0, hs⟩
    simp [normalizeRating, this]
  · intro raw q h
    exact normalizeRating_bounds raw.vote_average 10 q h
  · intro t raw q h
    exact normalizeRating_bounds raw.vote_average 10 q h
  · intro raw q h
    exact normalizeRating_bounds raw.total_rating 100 q h

/-- Witness for C1 at concrete inputs: 15 is out of range for scale 10,
and the end-to-end movie's 5.7 rating is within `[0, ratingMax]`. -/
theorem claim_C1_rating_invariant_witness :
    normalizeRating (some 15) 10 = none
    ∧ (0 ≤ (57 / 10 : ℚ) ∧ (57 / 10 : ℚ) ≤ (normalizeMovie endToEndRawMovie).ratingMax) :=
  ⟨claim_C1_rating_invariant.2.1 15 10 (Or.inr (by norm_num)),
   claim_C1_rating_invariant.2.2.2.1 endToEndRawMovie (57 / 10) (by
     show normalizeRating (some (57 / 10)) 10 = some (57 / 10)
     simp only [normalizeRating]
     rw [if_neg (by norm_num)])⟩

/-- C5: the end-to-end movie record yields rating 5.7, ratingMax 10,
genres `["Action"]`, and releaseDate `"2025-01-15T00:00:00.000Z"`. -/
theorem claim_C5_end_to_end :
    (normalizeMovie endToEndRawMovie).rating = some (57 / 10)
    ∧ (normalizeMovie endToEndRawMovie).ratingMax = 10
    ∧ (normalizeMovie endToEndRawMovie).genres = [GEntry.str "Action"]
    ∧ (normalizeMovie endToEndRawMovie).releaseDate
        = some (.str "2025-01-15T00:00:00.000Z") := by
  refine ⟨?_, rfl, by decide, by decide⟩
  show normalizeRating (some (57 / 10)) 10 = some (57 / 10)
  simp only [normalizeRating]
  rw [if_neg (by norm_num)]

/-- C4: `getCountdownStatus` returns `{daysUntil: null, isCountdown: false}`
for every falsy input; for every parseable release date it returns the
ceiling of the midnight-to-midnight millisecond difference divided by one
day, and `isCountdown` holds exactly for `1 ≤ daysUntil ≤ 7`. -/
theorem claim_C4_countdown :
    (∀ t : ℤ, getCountdownStatus t none = ⟨none, false⟩
      ∧ getCountdownStatus t (some (.num 0)) = ⟨none, false⟩
      ∧ getCountdownStatus t (some (.str "")) = ⟨none, false⟩)
    ∧ (∀ (t : ℤ) (d : DateInput) (ms : ℤ), truthyD (some d) = true → jsNewDate d = some ms →
        (getCountdownStatus t (some d)).daysUntil
          = some (.val (jsCeilDiv (midnightMs ms - midnightMs t) msPerDay))
        ∧ ((getCountdownStatus t (some d)).isCountdown = true ↔
            1 ≤ jsCeilDiv (midnightMs ms - midnightMs t) msPerDay
            ∧ jsCeilDiv (midnightMs ms - midnightMs t) msPerDay ≤ 7)) := by
  constructor
  · intro t
    refine ⟨rfl, rfl, rfl⟩
  · intro t d ms htr hparse
    simp only [getCountdownStatus, htr, Bool.not_true, Bool.false_eq_true, if_false, hparse]
    exact ⟨rfl, by simp⟩

/-- Witness for C4: 2025-01-18 viewed from 2025-01-15 is 3 days out. -/
theorem claim_C4_countdown_witness :
    (getCountdownStatus 1736899200000 (some (.str "2025-01-18"))).daysUntil
      = some (.val (jsCeilDiv (midnightMs 1737158400000 - midnightMs 1736899200000) msPerDay))
    ∧ ((getCountdownStatus 1736899200000 (some (.str "2025-01-18"))).isCountdown = true ↔
        1 ≤ jsCeilDiv (midnightMs 1737158400000 - midnightMs 1736899200000) msPerDay
        ∧ jsCeilDiv (midnightMs 1737158400000 - midnightMs 1736899200000) msPerDay ≤ 7) :=
  claim_C4_countdown.2 1736899200000 (.str "2025-01-18") 1737158400000 (by decide) (by decide)

/-- Counterexample to C3 as stated: with no first-air date and the
(falsy) empty string as next-episode date the function returns `null`,
not the argument, so `getTVShowDisplayDate(null, x) === x` fails at
`x = ""`. -/
theorem claim_C3_counterexample :
    getTVShowDisplayDate 0 none (some (.str "")) = none
    ∧ getTVShowDisplayDate 0 none (some (.str "")) ≠ some (.str "") := by
  exact ⟨rfl, by decide⟩

/-- C3 as amended: with no (truthy) first-air date the result is
`nextEpisodeDate || null` — the next-episode date when truthy, else null
(so `=== x` holds for truthy or null `x` but not for falsy strings);
with a truthy first-air date, the next-episode date is returned iff the
midnight-normalized first-air date is strictly before midnight-normalized
today and the next-episode date is truthy, the first-air date is returned
unchanged in every other case (equal-to-today, future, or unparseable
first-air dates included). -/
theorem claim_C3_tv_display_date :
    (∀ (t : ℤ) (ned : Option DateInput),
        getTVShowDisplayDate t none ned = (if truthyD ned then ned else none))
    ∧ (∀ (t : ℤ) (fad ned : Option DateInput), truthyD fad = false →
        getTVShowDisplayDate t fad ned = (if truthyD ned then ned else none))
    ∧ (∀ (t : ℤ) (fa : DateInput) (ned : Option DateInput) (ms : ℤ),
        truthyD (some fa) = true → jsNewDate fa = some ms →
        (midnightMs ms < midnightMs t → truthyD ned = true →
          getTVShowDisplayDate t (some fa) ned = ned)
        ∧ (¬(midnightMs ms < midnightMs t ∧ truthyD ned = true) →
          getTVShowDisplayDate t (some fa) ned = some fa))
    ∧ (∀ (t : ℤ) (fa : DateInput) (ned : Option DateInput),
        truthyD (some fa) = true → jsNewDate fa = none →
        getTVShowDisplayDate t (some fa) ned = some fa) := by
  refine ⟨?_, ?_, ?_, ?_⟩
  · intro t ned
    rfl
  · intro t fad ned hf
    simp [getTVShowDisplayDate, hf]
  · intro t fa ned ms htr hparse
    constructor
    · intro hlt hned
      simp [getTVShowDisplayDate, htr, hparse, hlt, hned]
    · intro hnot
      simp only [getTVShowDisplayDate, htr, Bool.not_true, Bool.false_eq_true, if_false, hparse]
      exact if_neg hnot
  · intro t fa ned htr hparse
    simp [getTVShowDisplayDate, htr, hparse]

/-- Witness for C3's amended statement: a 2020 first-air date viewed in
January 2025 with a truthy next-episode date yields the next-episode
date. -/
theorem claim_C3_tv_display_date_witness :
    getTVShowDisplayDate 1736899200000 (some (.str "2020-01-01")) (some (.str "2025-02-01"))
      = some (.str "2025-02-01") :=
  (claim_C3_tv_display_date.2.2.1 1736899200000 (.str "2020-01-01") (some (.str "2025-02-01"))
    1577836800000 (by decide) (by decide)).1 (by decide) (by decide)

/-- Counterexample to C2 as stated: a raw TV record with both `title`
and `name` absent yields a StandardItem with `title` undefined, not the
contract default `"Untitled"` (the `rawShow.title || rawShow.name`
override of the common-field extraction drops the default). -/
theorem claim_C2_counterexample :
    (normalizeTVShow 0 emptyRawTVShow).title = none
    ∧ (normalizeTVShow 0 emptyRawTVShow).title ≠ some "Untitled" := by
  exact ⟨rfl, by decide⟩

/-- C2 as amended: `normalizeMovie` and `normalizeGame` set `title` to
the configured title field when present and non-empty and to
`"Untitled"` when absent or empty; `normalizeTVShow` sets `title` to
the `title` field when truthy and otherwise to the raw `name` field
unchanged — with no `"Untitled"` default, so a record missing both
fields produces an undefined title. -/
theorem claim_C2_titles :
    (∀ (raw : RawMovie) (s : String), raw.title = some s → s ≠ "" →
        (normalizeMovie raw).title = some s)
    ∧ (∀ raw : RawMovie, raw.title = none ∨ raw.title = some "" →
        (normalizeMovie raw).title = some "Untitled")
    ∧ (∀ (raw : RawGame) (s : String), raw.name = some s → s ≠ "" →
        (normalizeGame raw).title = some s)
    ∧ (∀ raw : RawGame, raw.name = none ∨ raw.name = some "" →
        (normalizeGame raw).title = some "Untitled")
    ∧ (∀ (t : ℤ) (raw : RawTVShow) (s : String), raw.title = some s → s ≠ "" →
        (normalizeTVShow t raw).title = some s)
    ∧ (∀ (t : ℤ) (raw : RawTVShow), truthyS raw.title = false →
        (normalizeTVShow t raw).title = raw.name) := by
  refine ⟨?_, ?_, ?_, ?_, ?_, ?_⟩
  · intro raw s hs hne
    show some (jsOrStr raw.title "Untitled") = some s
    simp [jsOrStr, hs, hne]
  · intro raw h
    show some (jsOrStr raw.title "Untitled") = some "Untitled"
    rcases h with h | h <;> simp [jsOrStr, h]
  · intro raw s hs hne
    show some (jsOrStr raw.name "Untitled") = some s
    simp [jsOrStr, hs, hne]
  · intro raw h
    show some (jsOrStr raw.name "Untitled") = some "Untitled"
    rcases h with h | h <;> simp [jsOrStr, h]
  · intro t raw s hs hne
    show (if truthyS raw.title then raw.title else raw.name) = some s
    have : truthyS raw.title = true := by simp [truthyS, hs, hne]
    rw [if_pos this, hs]
  · intro t raw h
    show (if truthyS raw.title then raw.title else raw.name) = raw.name
    rw [h]
    simp

/-- Witness for C2's amended statement: an all-absent movie record gets
the `"Untitled"` default. -/
theorem claim_C2_titles_witness :
    (normalizeMovie untitledRawMovie).title = some "Untitled" :=
  claim_C2_titles.2.1 untitledRawMovie (Or.inl rfl)

/-- An input whose first element makes `normalizeGenres` fall through to
the unknown-format branch: `null`, an object without a `name` property,
or a numeric ID without a genre map. -/
def UnrecognizedFirst (l : List GEntry) (gmap : Option (ℤ → Option String)) : Prop :=
  ∃ f rest, l = f :: rest
    ∧ (f = GEntry.nullv ∨ f = GEntry.objOther ∨ (∃ n, f = GEntry.num n ∧ gmap = none))

/-- `normalizeGenres` returns `[]` whenever the first element is
unrecognized. -/
theorem normalizeGenres_unrecognized (l : List GEntry) (gmap : Option (ℤ → Option String))
    (h : UnrecognizedFirst l gmap) : normalizeGenres (some l) gmap = [] := by
  obtain ⟨f, rest, hl, hf⟩ := h
  subst hl
  rcases hf with hf | hf | ⟨n, hf, hg⟩ <;> subst hf
  · rfl
  · rfl
  · subst hg
    rfl

/-- C6: over the claim's enumerated input shapes (numeric-ID array with
a genre map, string array, object-with-`name` array, unrecognized
shape, non-array or empty input), `normalizeGenres` always returns a
list (never null), containing only non-empty genre-name strings;
numeric IDs resolve through the map with unmapped IDs dropped, falsy
entries are dropped, and unrecognized shapes give the empty list. -/
theorem claim_C6_genres_invariant (inp : Option (List GEntry)) (gmap : Option (ℤ → Option String))
    (h : inp = none ∨ inp = some [] ∨ ∃ l, inp = some l ∧
        ((∀ e ∈ l, ∃ n, e = GEntry.num n) ∨ (∀ e ∈ l, ∃ s, e = GEntry.str s)
          ∨ (∀ e ∈ l, ∃ s, e = GEntry.objNamed s) ∨ UnrecognizedFirst l gmap)) :
    (∀ x ∈ normalizeGenres inp gmap, ∃ s, x = GEntry.str s ∧ s ≠ "")
    ∧ (inp = none ∨ inp = some [] → normalizeGenres inp gmap = [])
    ∧ (∀ l, inp = some l → UnrecognizedFirst l gmap → normalizeGenres inp gmap = [])
    ∧ (∀ (l : List GEntry) (m : ℤ → Option String), inp = some l → gmap = some m →
        (∀ e ∈ l, ∃ n, e = GEntry.num n) →
        ∀ s, GEntry.str s ∈ normalizeGenres inp gmap →
          s ≠ "" ∧ ∃ n, GEntry.num n ∈ l ∧ m n = some s) := by
  refine ⟨?_, ?_, ?_, ?_⟩
  · intro x hx
    rcases h with h | h | ⟨l, hl, hshape⟩
    · subst h; simp [normalizeGenres] at hx
    · subst h; simp [normalizeGenres] at hx
    · subst hl
      cases l with
      | nil => simp [normalizeGenres] at hx
      | cons f rest =>
        rcases hshape with hs | hs | hs | hs
        · obtain ⟨n, hf⟩ := hs f (by simp)
          subst hf
          cases gmap with
          | none => simp [normalizeGenres] at hx
          | some m =>
            simp only [normalizeGenres, List.mem_filterMap] at hx
            obtain ⟨e, _, he⟩ := hx
            cases hlk : jsMapLookup m e with
            | none => rw [hlk] at he; exact absurd he (by simp)
            | some s =>
              rw [hlk] at he
              by_cases hse : s = ""
              · simp [hse] at he
              · simp only [if_pos hse] at he
                exact ⟨s, by simpa using he.symm, hse⟩
        · obtain ⟨s0, hf⟩ := hs f (by simp)
          subst hf
          simp only [normalizeGenres, List.mem_filter] at hx
          obtain ⟨s1, hss⟩ := hs x hx.1
          subst hss
          refine ⟨s1, rfl, ?_⟩
          simpa [GEntry.truthy] using hx.2
        · obtain ⟨s0, hf⟩ := hs f (by simp)
          subst hf
          simp only [normalizeGenres, List.mem_filterMap] at hx
          obtain ⟨e, hel, he⟩ := hx
          obtain ⟨v, hev⟩ := hs e hel
          subst hev
          by_cases hv : v = ""
          · simp [hv] at he
          · simp only [if_pos hv] at he
            exact ⟨v, by simpa using he.symm, hv⟩
        · rw [normalizeGenres_unrecognized _ _ hs] at hx
          simp at hx
  · rintro (h | h) <;> subst h <;> rfl
  · intro l hl hun
    subst hl
    exact normalizeGenres_unrecognized l gmap hun
  · intro l m hl hm hshape s hmem
    subst hl
    subst hm
    cases l with
    | nil => simp [normalizeGenres] at hmem
    | cons f rest =>
      obtain ⟨n0, hf⟩ := hshape f (by simp)
      subst hf
      simp only [normalizeGenres, List.mem_filterMap] at hmem
      obtain ⟨e, hel, he⟩ := hmem
      obtain ⟨n, hen⟩ := hshape e hel
      subst hen
      simp only [jsMapLookup] at he
      cases hmn : m n with
      | none => rw [hmn] at he; exact absurd he (by simp)
      | some v =>
        rw [hmn] at he
        by_cases hv : v = ""
        · simp [hv] at he
        · simp only [if_pos hv] at he
          have hvs : v = s := by simpa using he
          subst hvs
          exact ⟨hv, n, hel, hmn⟩

/-- Witness for C6: a `[null]` input is an unrecognized shape and yields
the empty list. -/
theorem claim_C6_genres_invariant_witness :
    normalizeGenres (some [GEntry.nullv]) none = [] :=
  (claim_C6_genres_invariant (some [GEntry.nullv]) none
      (Or.inr (Or.inr ⟨[GEntry.nullv], rfl,
        Or.inr (Or.inr (Or.inr ⟨GEntry.nullv, [], rfl, Or.inl rfl⟩))⟩))).2.2.1
    [GEntry.nullv] rfl ⟨GEntry.nullv, [], rfl, Or.inl rfl⟩

/-- If some record in the list makes the adapter throw, the
normalization loop aborts at the first such record, reporting its index
(offset by the starting index) and raw payload. -/
theorem normalizeAll_error_of_exists {Raw Err Item : Type} (adapter : Raw → Except Err Item) :
    ∀ (data : List Raw) (i0 : ℕ),
      (∃ (j : ℕ) (y : Raw), data[j]? = some y ∧ ∃ e, adapter y = Except.error e) →
      ∃ (i : ℕ) (x : Raw) (e : Err), normalizeAll adapter data i0 = Except.error (i0 + i, x, e)
        ∧ data[i]? = some x ∧ adapter x = Except.error e
        ∧ ∀ j y, j < i → data[j]? = some y → ∃ z, adapter y = Except.ok z := by
  intro data
  induction data with
  | nil =>
    intro i0 h
    obtain ⟨j, y, hj, _⟩ := h
    simp at hj
  | cons x xs ih =>
    intro i0 h
    cases hx : adapter x with
    | error e =>
      refine ⟨0, x, e, ?_, by simp, hx, ?_⟩
      · simp [normalizeAll, hx]
      · intro j y hj
        exact absurd hj (Nat.not_lt_zero j)
    | ok z =>
      have htail : ∃ (j : ℕ) (y : Raw), xs[j]? = some y ∧ ∃ e, adapter y = Except.error e := by
        obtain ⟨j, y, hj, e, he⟩ := h
        cases j with
        | zero =>
          simp only [List.getElem?_cons_zero, Option.some.injEq] at hj
          subst hj
          rw [hx] at he
          exact absurd he (by simp)
        | succ j' =>
          simp only [List.getElem?_cons_succ] at hj
          exact ⟨j', y, hj, e, he⟩
      obtain ⟨i, x', e, heq, hget, herr, hmin⟩ := ih (i0 + 1) htail
      refine ⟨i + 1, x', e, ?_, by simpa using hget, herr, ?_⟩
      · simp only [normalizeAll, hx, heq]
        congr 2
        omega
      · intro j y hj hy
        cases j with
        | zero =>
          simp only [List.getElem?_cons_zero, Option.some.injEq] at hy
          subst hy
          exact ⟨z, hx⟩
        | succ j' =>
          simp only [List.getElem?_cons_succ] at hy
          exact hmin j' y (by omega) hy

/-- C7: when any record's adapter throws during per-item normalization,
the loop re-throws at the first failing record — the logged error
carries that record's index and raw payload — and the whole category
load aborts: nothing is displayed and the cache (data and timestamps,
at every key) is left exactly as it was, so no partial list of
half-normalized items is cached or rendered. -/
theorem claim_C7_all_or_nothing {Raw Err Item : Type} (adapter : Raw → Except Err Item)
    (cache : DataCache Item) (category : String) (now : ℤ) (data : List Raw)
    (h : ∃ (j : ℕ) (y : Raw), data[j]? = some y ∧ ∃ e, adapter y = Except.error e) :
    ∃ (i : ℕ) (x : Raw) (e : Err), normalizeAll adapter data 0 = Except.error (i, x, e)
      ∧ data[i]? = some x ∧ adapter x = Except.error e
      ∧ (∀ j y, j < i → data[j]? = some y → ∃ z, adapter y = Except.ok z)
      ∧ (loadContentNormalize adapter cache category now data).2 = none
      ∧ ∀ k, (loadContentNormalize adapter cache category now data).1.data k = cache.data k
        ∧ (loadContentNormalize adapter cache category now data).1.timestamps k
            = cache.timestamps k := by
  obtain ⟨i, x, e, heq, hget, herr, hmin⟩ := normalizeAll_error_of_exists adapter data 0 h
  rw [Nat.zero_add] at heq
  refine ⟨i, x, e, heq, hget, herr, hmin, ?_, ?_⟩
  · simp [loadContentNormalize, heq]
  · intro k
    constructor <;> simp [loadContentNormalize, heq]

/-- Witness for C7: a three-record list whose middle record throws
leaves an empty cache empty and renders nothing. -/
theorem claim_C7_all_or_nothing_witness :
    ∃ i x e,
      normalizeAll (fun n : ℕ => if n = 1 then Except.error (7 : ℕ) else Except.ok n) [0, 1, 2] 0
        = Except.error (i, x, e)
      ∧ [0, 1, 2][i]? = some x
      ∧ (if x = 1 then Except.error (7 : ℕ) else Except.ok x) = Except.error e
      ∧ (∀ j y, j < i → [0, 1, 2][j]? = some y →
          ∃ z, (if y = 1 then Except.error (7 : ℕ) else Except.ok y) = Except.ok z)
      ∧ (loadContentNormalize (fun n : ℕ => if n = 1 then Except.error (7 : ℕ) else Except.ok n)
          ⟨fun _ => none, fun _ => none⟩ "movies" 0 [0, 1, 2]).2 = none
      ∧ ∀ k, (loadContentNormalize (fun n : ℕ => if n = 1 then Except.error (7 : ℕ) else Except.ok n)
            ⟨fun _ => none, fun _ => none⟩ "movies" 0 [0, 1, 2]).1.data k
            = (⟨fun _ => none, fun _ => none⟩ : DataCache ℕ).data k
        ∧ (loadContentNormalize (fun n : ℕ => if n = 1 then Except.error (7 : ℕ) else Except.ok n)
            ⟨fun _ => none, fun _ => none⟩ "movies" 0 [0, 1, 2]).1.timestamps k
            = (⟨fun _ => none, fun _ => none⟩ : DataCache ℕ).timestamps k :=
  claim_C7_all_or_nothing (fun n : ℕ => if n = 1 then Except.error (7 : ℕ) else Except.ok n)
    ⟨fun _ => none, fun _ => none⟩ "movies" 0 [0, 1, 2] ⟨1, 1, rfl, 7, rfl⟩

/-- Counterexample to C8 as stated: an all-whitespace string trims to
`""`, which does not start with a blocked prefix, yet `sanitizeURL`
returns the empty string — so "returns `''` iff the lower-cased trimmed
value starts with `javascript:` or `data:`" fails. -/
theorem claim_C8_counterexample :
    sanitizeURL (.str " ") = ""
    ∧ (jsStartsWith (jsToLower (jsTrim " ")) "javascript:"
        || jsStartsWith (jsToLower (jsTrim " ")) "data:") = false := by
  exact ⟨by decide, by decide⟩

/-- C8 as amended: `sanitizeURL` returns `''` for non-strings; for a
string `v` with trimmed form `t`, it returns `''` when lower-cased `t`
starts with `javascript:` or `data:` and `t` unchanged otherwise — so
the result is the empty string iff `t` has a blocked prefix or `t` is
itself empty. -/
theorem claim_C8_sanitizeURL :
    sanitizeURL .nonString = ""
    ∧ ∀ s : String,
        ((jsStartsWith (jsToLower (jsTrim s)) "javascript:"
            || jsStartsWith (jsToLower (jsTrim s)) "data:") = true →
          sanitizeURL (.str s) = "")
        ∧ ((jsStartsWith (jsToLower (jsTrim s)) "javascript:"
            || jsStartsWith (jsToLower (jsTrim s)) "data:") = false →
          sanitizeURL (.str s) = jsTrim s)
        ∧ (sanitizeURL (.str s) = "" ↔
            (jsStartsWith (jsToLower (jsTrim s)) "javascript:"
              || jsStartsWith (jsToLower (jsTrim s)) "data:") = true
            ∨ jsTrim s = "") := by
  refine ⟨rfl, ?_⟩
  intro s
  by_cases hb : (jsStartsWith (jsToLower (jsTrim s)) "javascript:"
      || jsStartsWith (jsToLower (jsTrim s)) "data:") = true
  · refine ⟨fun _ => ?_, fun hfalse => ?_, ?_⟩
    · simp [sanitizeURL, hb]
    · rw [hb] at hfalse
      exact absurd hfalse (by simp)
    · constructor
      · intro _
        exact Or.inl hb
      · intro _
        simp [sanitizeURL, hb]
  · have hb' : (jsStartsWith (jsToLower (jsTrim s)) "javascript:"
        || jsStartsWith (jsToLower (jsTrim s)) "data:") = false := by
      simpa using hb
    refine ⟨fun htrue => absurd htrue hb, fun _ => ?_, ?_⟩
    · simp [sanitizeURL, hb']
    · rw [show sanitizeURL (.str s) = jsTrim s by simp [sanitizeURL, hb']]
      constructor
      · intro h
        exact Or.inr h
      · rintro (h | h)
        · exact absurd h hb
        · exact h

/-- Witness for C8's amended statement: a `javascript:` URL is reduced
to the empty string. -/
theorem claim_C8_sanitizeURL_witness :
    sanitizeURL (.str "javascript:alert(1)") = "" :=
  (claim_C8_sanitizeURL.2 "javascript:alert(1)").1 (by decide)

/-- `ratFloor` is the mathematical floor. -/
theorem ratFloor_eq_floor (q : ℚ) : ratFloor q = ⌊q⌋ := by
  unfold ratFloor
  rw [Int.fdiv_eq_ediv _ (by positivity), Rat.floor_def]

/-- `parseInt` truncation agrees with the floor on non-negative values. -/
theorem ratTrunc_of_nonneg (q : ℚ) (h : 0 ≤ q) : ratTrunc q = ⌊q⌋ := by
  unfold ratTrunc
  rw [if_pos h, ratFloor_eq_floor]

/-- Floor of a rational divided by a positive natural, as integer division. -/
theorem floor_div_natCast (a : ℚ) (K : ℕ) (hK : 0 < K) : ⌊a / (K : ℚ)⌋ = ⌊a⌋ / (K : ℤ) := by
  have hK' : (0 : ℚ) < (K : ℚ) := by exact_mod_cast hK
  have key : ∀ z : ℤ, z ≤ ⌊a / (K : ℚ)⌋ ↔ z ≤ ⌊a⌋ / (K : ℤ) := by
    intro z
    rw [Int.le_floor, le_div_iff hK',
      show ((z : ℚ) * (K : ℚ)) = ((z * K : ℤ) : ℚ) by push_cast; ring,
      ← Int.le_floor, Int.le_ediv_iff_mul_le (by exact_mod_cast hK)]
  have h1 := (key ⌊a / (K : ℚ)⌋).mp le_rfl
  have h2 := (key (⌊a⌋ / (K : ℤ))).mpr le_rfl
  omega

/-- Shifting by an integer and dividing by a positive natural sees only
the floor of the rational. -/
theorem floor_shift_trunc (a : ℚ) (c : ℤ) (K : ℕ) (hK : 0 < K) :
    ⌊(a + (c : ℚ)) / (K : ℚ)⌋ = ⌊(((⌊a⌋ : ℤ) : ℚ) + (c : ℚ)) / (K : ℚ)⌋ := by
  rw [floor_div_natCast _ K hK, floor_div_natCast _ K hK, Int.floor_add_int, Int.floor_add_int,
    Int.floor_intCast]

/-- The millions branch of `toFixed` cannot see the fractional part
dropped by `parseInt`. -/
theorem jsToFixed_M (a : ℚ) :
    jsToFixed (((⌊a⌋ : ℤ) : ℚ) / 1000000) 1 = jsToFixed (a / 1000000) 1 := by
  unfold jsToFixed
  congr 1
  rw [ratFloor_eq_floor, ratFloor_eq_floor]
  rw [show ((⌊a⌋ : ℤ) : ℚ) / 1000000 * (10 : ℚ) ^ 1 + 1 / 2
      = (((⌊a⌋ : ℤ) : ℚ) + ((50000 : ℤ) : ℚ)) / ((100000 : ℕ) : ℚ) by push_cast; ring]
  rw [show a / 1000000 * (10 : ℚ) ^ 1 + 1 / 2
      = (a + ((50000 : ℤ) : ℚ)) / ((100000 : ℕ) : ℚ) by push_cast; ring]
  rw [floor_shift_trunc a 50000 100000 (by norm_num)]

/-- The thousands branch of `toFixed` cannot see the fractional part
dropped by `parseInt`. -/
theorem jsToFixed_K (a : ℚ) :
    jsToFixed (((⌊a⌋ : ℤ) : ℚ) / 1000) 0 = jsToFixed (a / 1000) 0 := by
  unfold jsToFixed
  congr 1
  rw [ratFloor_eq_floor, ratFloor_eq_floor]
  rw [show ((⌊a⌋ : ℤ) : ℚ) / 1000 * (10 : ℚ) ^ 0 + 1 / 2
      = (((⌊a⌋ : ℤ) : ℚ) + ((500 : ℤ) : ℚ)) / ((1000 : ℕ) : ℚ) by push_cast; ring]
  rw [show a / 1000 * (10 : ℚ) ^ 0 + 1 / 2
      = (a + ((500 : ℤ) : ℚ)) / ((1000 : ℕ) : ℚ) by push_cast; ring]
  rw [floor_shift_trunc a 500 1000 (by norm_num)]

/-- `currencyDisplay` on a non-zero amount, with the `parseInt`
truncation explicit. -/
theorem currencyDisplay_pos (a : ℚ) (h : a ≠ 0) :
    currencyDisplay (some a) =
      (if ratTrunc a ≥ 1000000 then "$" ++ jsToFixed ((ratTrunc a : ℚ) / 1000000) 1 ++ "M"
       else if ratTrunc a ≥ 1000 then "$" ++ jsToFixed ((ratTrunc a : ℚ) / 1000) 0 ++ "K"
       else "$" ++ toString (ratTrunc a)) := by
  simp only [currencyDisplay, if_neg h]

/-- Amounts of at least one million display as in the claim. -/
theorem currencyDisplay_M (a : ℚ) (h : 1000000 ≤ a) :
    currencyDisplay (some a) = "$" ++ jsToFixed (a / 1000000) 1 ++ "M" := by
  have ha0 : a ≠ 0 := by intro h0; rw [h0] at h; norm_num at h
  have hnn : 0 ≤ a := le_trans (by norm_num) h
  have htr : ratTrunc a = ⌊a⌋ := ratTrunc_of_nonneg a hnn
  have hfl : (1000000 : ℤ) ≤ ⌊a⌋ := Int.le_floor.mpr (by exact_mod_cast h)
  rw [currencyDisplay_pos a ha0, htr, if_pos hfl, jsToFixed_M]

/-- Amounts in `[1000, 1000000)` display as in the claim. -/
theorem currencyDisplay_K (a : ℚ) (h1 : 1000 ≤ a) (h2 : a < 1000000) :
    currencyDisplay (some a) = "$" ++ jsToFixed (a / 1000) 0 ++ "K" := by
  have ha0 : a ≠ 0 := by intro h0; rw [h0] at h1; norm_num at h1
  have hnn : 0 ≤ a := le_trans (by norm_num) h1
  have htr : ratTrunc a = ⌊a⌋ := ratTrunc_of_nonneg a hnn
  have hflK : (1000 : ℤ) ≤ ⌊a⌋ := Int.le_floor.mpr (by exact_mod_cast h1)
  have hflM : ¬(1000000 : ℤ) ≤ ⌊a⌋ := by
    intro hc
    have : ((1000000 : ℤ) : ℚ) ≤ a := Int.le_floor.mp hc
    push_cast at this
    linarith
  rw [currencyDisplay_pos a ha0, htr, if_neg hflM, if_pos hflK, jsToFixed_K]

/-- Counterexample to C9 as stated: at the non-integer amount 500.5 the
code prints the `parseInt` truncation (`"$500"`), not the amount itself
(`"$500.5"` per the claim's reading, `currencyDisplayClaimed`). -/
theorem claim_C9_counterexample :
    currencyDisplay (some fiveHundredPointFive)
      ≠ currencyDisplayClaimed (some fiveHundredPointFive)
    ∧ currencyDisplay (some fiveHundredPointFive) = "$500" := by
  exact ⟨by decide, by decide⟩

/-- C9 as amended: falsy or NaN amounts display `"N/A"`; a non-zero
amount is first truncated by `parseInt`, and the truncation is what the
branches display — which only changes the output in the sub-thousand
branch (`"$" ++ parseInt(a)` instead of `"$" ++ a`): the `M` and `K`
branches for `a ≥ 1,000,000` and `1,000 ≤ a < 1,000,000` still display
`"$"` + `a/1e6` to one decimal + `"M"`, resp. `"$"` + `a/1e3` rounded to
an integer + `"K"`, exactly as claimed, and the claim's three examples
hold. -/
theorem claim_C9_currency :
    currencyDisplay none = "N/A"
    ∧ currencyDisplay (some 0) = "N/A"
    ∧ (∀ a : ℚ, a ≠ 0 → currencyDisplay (some a) =
        (if ratTrunc a ≥ 1000000 then "$" ++ jsToFixed ((ratTrunc a : ℚ) / 1000000) 1 ++ "M"
         else if ratTrunc a ≥ 1000 then "$" ++ jsToFixed ((ratTrunc a : ℚ) / 1000) 0 ++ "K"
         else "$" ++ toString (ratTrunc a)))
    ∧ (∀ a : ℚ, 1000000 ≤ a → currencyDisplay (some a) = "$" ++ jsToFixed (a / 1000000) 1 ++ "M")
    ∧ (∀ a : ℚ, 1000 ≤ a → a < 1000000 →
        currencyDisplay (some a) = "$" ++ jsToFixed (a / 1000) 0 ++ "K")
    ∧ currencyDisplay (some 1400000) = "$1.4M"
    ∧ currencyDisplay (some 50000) = "$50K"
    ∧ currencyDisplay (some 500) = "$500" := by
  refine ⟨rfl, by norm_num [currencyDisplay], currencyDisplay_pos, currencyDisplay_M,
    currencyDisplay_K, ?_, ?_, ?_⟩
  · rw [currencyDisplay_M 1400000 (by norm_num)]
    rw [show jsToFixed ((1400000 : ℚ) / 1000000) 1 = jsToFixedN 14 1 by
      unfold jsToFixed
      rw [ratFloor_eq_floor,
        show (1400000 : ℚ) / 1000000 * (10 : ℚ) ^ 1 + 1 / 2 = 29 / 2 by norm_num,
        show ⌊(29 / 2 : ℚ)⌋ = 14 by norm_num]]
    decide
  · rw [currencyDisplay_K 50000 (by norm_num) (by norm_num)]
    rw [show jsToFixed ((50000 : ℚ) / 1000) 0 = jsToFixedN 50 0 by
      unfold jsToFixed
      rw [ratFloor_eq_floor,
        show (50000 : ℚ) / 1000 * (10 : ℚ) ^ 0 + 1 / 2 = 101 / 2 by norm_num,
        show ⌊(101 / 2 : ℚ)⌋ = 50 by norm_num]]
    decide
  · rw [currencyDisplay_pos 500 (by norm_num)]
    rw [show ratTrunc 500 = 500 by
      rw [ratTrunc_of_nonneg 500 (by norm_num)]
      norm_num]
    norm_num
    decide

/-- Witness for C9's amended statement: the truncation-aware branch
description applied at the counterexample amount gives `"$500"`. -/
theorem claim_C9_currency_witness :
    currencyDisplay (some fiveHundredPointFive) =
      (if ratTrunc fiveHundredPointFive ≥ 1000000 then
        "$" ++ jsToFixed ((ratTrunc fiveHundredPointFive : ℚ) / 1000000) 1 ++ "M"
       else if ratTrunc fiveHundredPointFive ≥ 1000 then
        "$" ++ jsToFixed ((ratTrunc fiveHundredPointFive : ℚ) / 1000) 0 ++ "K"
       else "$" ++ toString (ratTrunc fiveHundredPointFive)) :=
  claim_C9_currency.2.2.1 fiveHundredPointFive (by decide)

/-- A successful `findIdx?` found a satisfying element. -/
theorem findIdx?_eq_some_exists {α : Type} (p : α → Bool) :
    ∀ (l : List α) (i j : ℕ), List.findIdx? p l i = some j → ∃ b ∈ l, p b = true := by
  intro l
  induction l with
  | nil =>
    intro i j h
    rw [List.findIdx?_nil] at h
    exact absurd h (by simp)
  | cons x xs ih =>
    intro i j h
    rw [List.findIdx?_cons] at h
    by_cases hp : p x = true
    · exact ⟨x, by simp, hp⟩
    · rw [if_neg hp] at h
      obtain ⟨b, hbl, hbp⟩ := ih (i + 1) j h
      exact ⟨b, by simp [hbl], hbp⟩

/-- Counterexample to C10 as stated: toggling the first of two
(distinct-id) stored bookmarks twice yields the list in reversed order,
not the original stored list. -/
theorem claim_C10_counterexample :
    (bookmarkToggle ⟨1, "a"⟩ (bookmarkToggle ⟨1, "a"⟩ [⟨1, "a"⟩, ⟨2, "b"⟩]).2).2
      = [⟨2, "b"⟩, ⟨1, "a"⟩]
    ∧ (bookmarkToggle ⟨1, "a"⟩ (bookmarkToggle ⟨1, "a"⟩ [⟨1, "a"⟩, ⟨2, "b"⟩]).2).2
      ≠ [⟨1, "a"⟩, ⟨2, "b"⟩] := by
  exact ⟨by decide, by decide⟩

/-- C10 as amended: on a stored list with pairwise-distinct ids,
`toggle` returns true iff no stored bookmark has the item's id, appends
the item at the end when absent and removes the stored match when
present; toggling twice restores the list exactly when the item was
absent, while toggling a present item twice removes the stored match and
re-appends the given item, yielding the original list with that entry
moved to the end — a permutation of (not necessarily equal to) the
original when the stored match equals the item. -/
theorem claim_C10_toggle (item : BItem) (l : List BItem)
    (hdist : l.Pairwise (fun a b => a.id ≠ b.id)) :
    ((bookmarkToggle item l).1 = true ↔ ∀ b ∈ l, b.id ≠ item.id)
    ∧ ((∀ b ∈ l, b.id ≠ item.id) →
        (bookmarkToggle item l).2 = l ++ [item]
        ∧ (bookmarkToggle item (l ++ [item])).2 = l)
    ∧ (∀ l₁ b l₂, l = l₁ ++ b :: l₂ → b.id = item.id →
        (bookmarkToggle item l).2 = l₁ ++ l₂
        ∧ (∀ c ∈ l₁ ++ l₂, c.id ≠ item.id)
        ∧ (bookmarkToggle item (l₁ ++ l₂)).2 = (l₁ ++ l₂) ++ [item]
        ∧ (b = item → ((l₁ ++ l₂) ++ [item]).Perm l)) := by
  have hnone : ∀ m : List BItem, (∀ b ∈ m, b.id ≠ item.id) →
      List.findIdx? (fun b => b.id = item.id) m = none := by
    intro m hm
    rw [List.findIdx?_eq_none_iff]
    intro x hx
    simpa using hm x hx
  have happend : ∀ m : List BItem, (∀ b ∈ m, b.id ≠ item.id) →
      (bookmarkToggle item m).2 = m ++ [item] := by
    intro m hm
    unfold bookmarkToggle
    rw [hnone m hm]
  have hsecond : ∀ m : List BItem, (∀ b ∈ m, b.id ≠ item.id) →
      (bookmarkToggle item (m ++ [item])).2 = m := by
    intro m hm
    unfold bookmarkToggle
    rw [List.findIdx?_append, hnone m hm,
      show List.findIdx? (fun b => b.id = item.id) [item] = some 0 by
        rw [List.findIdx?_cons, if_pos (by simp)]]
    simp only [Option.map_some, Option.none_or]
    show (m ++ [item]).eraseIdx (0 + m.length) = m
    rw [Nat.zero_add, List.eraseIdx_append_of_length_le le_rfl, Nat.sub_self,
      List.eraseIdx_cons_zero, List.append_nil]
  refine ⟨?_, fun h => ⟨happend l h, hsecond l h⟩, ?_⟩
  · cases hfi : List.findIdx? (fun b => b.id = item.id) l with
    | none =>
      have h1 : (bookmarkToggle item l).1 = true := by
        unfold bookmarkToggle
        rw [hfi]
      rw [h1]
      simp only [true_iff]
      rw [List.findIdx?_eq_none_iff] at hfi
      intro b hb
      simpa using hfi b hb
    | some i =>
      have h1 : (bookmarkToggle item l).1 = false := by
        unfold bookmarkToggle
        rw [hfi]
      rw [h1]
      constructor
      · intro hc
        exact absurd hc (by simp)
      · intro hall
        obtain ⟨b, hbl, hbp⟩ := findIdx?_eq_some_exists _ l 0 i hfi
        exact absurd (of_decide_eq_true hbp) (hall b hbl)
  · intro l₁ b l₂ hl hb
    subst hl
    have hl₁ : ∀ c ∈ l₁, c.id ≠ item.id := by
      intro c hc
      have := (List.pairwise_append.mp hdist).2.2 c hc b (by simp)
      rw [hb] at this
      exact this
    have hl₂ : ∀ c ∈ l₂, c.id ≠ item.id := by
      intro c hc
      have := (List.pairwise_cons.mp (List.pairwise_append.mp hdist).2.1).1 c hc
      rw [hb] at this
      exact fun hce => this hce.symm
    have hl₁₂ : ∀ c ∈ l₁ ++ l₂, c.id ≠ item.id := by
      intro c hc
      rcases List.mem_append.mp hc with hc | hc
      · exact hl₁ c hc
      · exact hl₂ c hc
    have hfind : List.findIdx? (fun x => x.id = item.id) (l₁ ++ b :: l₂) = some l₁.length := by
      rw [List.findIdx?_append, hnone l₁ hl₁,
        show List.findIdx? (fun x => x.id = item.id) (b :: l₂) = some 0 by
          rw [List.findIdx?_cons, if_pos (by simp [hb])]]
      simp
    have herase : (bookmarkToggle item (l₁ ++ b :: l₂)).2 = l₁ ++ l₂ := by
      unfold bookmarkToggle
      rw [hfind]
      show (l₁ ++ b :: l₂).eraseIdx l₁.length = l₁ ++ l₂
      rw [List.eraseIdx_append_of_length_le le_rfl, Nat.sub_self, List.eraseIdx_cons_zero]
    refine ⟨herase, hl₁₂, happend (l₁ ++ l₂) hl₁₂, ?_⟩
    intro hbe
    subst hbe
    rw [List.append_assoc]
    exact List.Perm.append_left l₁ (List.perm_append_singleton b l₂)

/-- Witness for C10's amended statement: toggling an absent item appends
it at the end. -/
theorem claim_C10_toggle_witness :
    (bookmarkToggle ⟨3, "c"⟩ [⟨1, "a"⟩]).2 = [⟨1, "a"⟩] ++ [⟨3, "c"⟩]
    ∧ (bookmarkToggle ⟨3, "c"⟩ ([⟨1, "a"⟩] ++ [⟨3, "c"⟩])).2 = [⟨1, "a"⟩] :=
  (claim_C10_toggle ⟨3, "c"⟩ [⟨1, "a"⟩] (by simp)).2.1 (by decide)

end Midloop
